import Mathlib

/-!
Verification of the ENU geomechanics library `enu_407.py`.

The library is a stateless collection of vectorized numeric functions:
orientation measurements (plunge/trend, strike/dip, degrees) are turned into
unit direction vectors in East-North-Up coordinates, stress tensors are built
from principal stresses and an azimuth, and a stress tensor is resolved on a
plane into normal and shear traction magnitudes.

Two embeddings are developed side by side:
* a typed embedding over `Matrix (Fin m) (Fin n) ℝ`, which captures the
  numeric semantics of each function on well-shaped inputs (a batch of n
  column vectors is a `Matrix (Fin 3) (Fin n) ℝ`, exactly the numpy layout
  `[[x0..xn],[y0..yn],[z0..zn]]`);
* a dynamic-shape embedding (`NDArray`, `NPOut`) that models numpy's runtime
  shapes, elementwise broadcasting and shape errors, for the claims that are
  about shapes and failure rather than values.
-/

open Real

noncomputable section

/-- Model of `np.radians`: degrees to radians, `deg * π / 180`. -/
def radians (angle : ℝ) : ℝ := angle * (Real.pi / 180)

/-- Source `vecDotProduct(A, B) = np.sum(A*B, axis=0)`: columnwise dot product of two
arrays of column vectors of the same dimensions. -/
def vecDotProduct {m n : ℕ} (arrayOfColumnVectors1 arrayOfColumnVectors2 :
    Matrix (Fin m) (Fin n) ℝ) : Fin n → ℝ :=
  fun j => ∑ i, arrayOfColumnVectors1 i j * arrayOfColumnVectors2 i j

/-- Source `vecMagnitude(A) = np.sqrt(vecDotProduct(A, A))`: columnwise Euclidean
magnitude. -/
def vecMagnitude {m n : ℕ} (arrayOfColumnVectors : Matrix (Fin m) (Fin n) ℝ) :
    Fin n → ℝ :=
  fun j => Real.sqrt (vecDotProduct arrayOfColumnVectors arrayOfColumnVectors j)

/-- Source `dirVecLine(plunge, trend)` on length-n array inputs: unit direction
vectors (East, North, Up) of lines given as (plunge, trend) in degrees.
`vx = sin t * cos p`, `vy = cos t * cos p`, `vz = -sin p`
(z is positive up but plunge is positive down), stacked as
`np.array([vx, vy, vz])`, a 3×n array. -/
def dirVecLineB {n : ℕ} (plunge trend : Fin n → ℝ) : Matrix (Fin 3) (Fin n) ℝ :=
  Matrix.of fun i j =>
    ![Real.sin (radians (trend j)) * Real.cos (radians (plunge j)),
      Real.cos (radians (trend j)) * Real.cos (radians (plunge j)),
      -Real.sin (radians (plunge j))] i

/-- Source `dirVecLine(plunge, trend)` on scalar inputs: after the
`if len(v.shape) == 1: v.shape = (3,1)` step the result is the 3×1
single-column batch. -/
def dirVecLine (plunge trend : ℝ) : Matrix (Fin 3) (Fin 1) ℝ :=
  dirVecLineB (fun _ => plunge) (fun _ => trend)

/-- Source `dirVecPlane(strike, dip)` on array inputs: upward unit normal of planes,
computed as `dirVecLine(dip - 90, strike + 90)`. -/
def dirVecPlaneB {n : ℕ} (strike dip : Fin n → ℝ) : Matrix (Fin 3) (Fin n) ℝ :=
  dirVecLineB (fun j => dip j - 90) (fun j => strike j + 90)

/-- Source `dirVecPlane(strike, dip)` on scalar inputs. -/
def dirVecPlane (strike dip : ℝ) : Matrix (Fin 3) (Fin 1) ℝ :=
  dirVecPlaneB (fun _ => strike) (fun _ => dip)

/-- Source `rotationMatrixAroundZ(angle)`: matrix for clockwise rotation by `angle`
degrees around the Z (Up) axis,
`[[cos a, sin a, 0], [-sin a, cos a, 0], [0, 0, 1]]` with `a = radians angle`. -/
def rotationMatrixAroundZ (angle : ℝ) : Matrix (Fin 3) (Fin 3) ℝ :=
  !![Real.cos (radians angle), Real.sin (radians angle), 0;
     -Real.sin (radians angle), Real.cos (radians angle), 0;
     0, 0, 1]

/-- Source `stressTensorDiagonal(sigma_E, sigma_N, sigma_U)`: diagonal 3×3 stress
tensor with the principal stresses in ENU order on the diagonal. -/
def stressTensorDiagonal (sigma_E sigma_N sigma_U : ℝ) : Matrix (Fin 3) (Fin 3) ℝ :=
  !![sigma_E, 0, 0;
     0, sigma_N, 0;
     0, 0, sigma_U]

/-- Source `makeStressTensor(SHmin, SHmax, SV, azimuth_SHmax)`:
`R @ diag(SHmin, SHmax, SV) @ R.T` with `R = rotationMatrixAroundZ(azimuth_SHmax)`. -/
def makeStressTensor (SHmin SHmax SV azimuth_SHmax : ℝ) : Matrix (Fin 3) (Fin 3) ℝ :=
  rotationMatrixAroundZ azimuth_SHmax * stressTensorDiagonal SHmin SHmax SV *
    Matrix.transpose (rotationMatrixAroundZ azimuth_SHmax)

/-- Source `stressOnPlane(stressTensor, vecNormal)`:
`vecTraction = stressTensor @ vecNormal`;
`normalStress = vecDotProduct(vecNormal, vecTraction)`;
`shearTraction = vecTraction - np.multiply(normalStress, vecNormal)`
(numpy broadcasts the length-n `normalStress` across the 3 rows);
`shearStress = vecMagnitude(shearTraction)`.
Returns the pair `(normalStress, shearStress)` of length-n sequences. -/
def stressOnPlane {n : ℕ} (stressTensor : Matrix (Fin 3) (Fin 3) ℝ)
    (vecNormal : Matrix (Fin 3) (Fin n) ℝ) : (Fin n → ℝ) × (Fin n → ℝ) :=
  let vecTraction := stressTensor * vecNormal
  let normalStress := vecDotProduct vecNormal vecTraction
  let shearTraction := Matrix.of fun i j => vecTraction i j - normalStress j * vecNormal i j
  (normalStress, vecMagnitude shearTraction)

/-- Source `strengthCoulomb(cohesion, coefficientFriction, normalStress)`: Coulomb
failure criterion `cohesion + coefficientFriction * normalStress`. -/
def strengthCoulomb (cohesion coefficientFriction normalStress : ℝ) : ℝ :=
  cohesion + coefficientFriction * normalStress

/-- A single column vector as a 3×1 batch. -/
def colOf (v : Fin 3 → ℝ) : Matrix (Fin 3) (Fin 1) ℝ :=
  Matrix.of fun i _ => v i

/- ### Dynamic-shape numpy model

The typed embedding above fixes the shapes in the types. The claims about
shape errors and output shapes are instead about numpy's runtime behaviour, so
the same functions are also embedded over arrays with runtime shape. -/

/-- A 2-D numpy array: runtime shape plus entries (only indices below the
shape are relevant). -/
structure NDArray where
  rows : ℕ
  cols : ℕ
  data : ℕ → ℕ → ℝ

/-- Model of numpy broadcasting of a single dimension: sizes must be equal, or a size
of 1 is stretched to the other size; anything else is a shape error. -/
def broadcastDim (a b : ℕ) : Option ℕ :=
  if a = b then some a else if a = 1 then some b else if b = 1 then some a else none

/-- Index into a possibly-stretched dimension: a size-1 dimension always reads
index 0. -/
def bIndex (size i : ℕ) : ℕ :=
  if size = 1 then 0 else i

/-- Elementwise binary operation on two 2-D arrays with numpy broadcasting;
`none` models the raised shape error. -/
def npZip (f : ℝ → ℝ → ℝ) (A B : NDArray) : Option NDArray :=
  match broadcastDim A.rows B.rows, broadcastDim A.cols B.cols with
  | some r, some c =>
      some ⟨r, c, fun i j =>
        f (A.data (bIndex A.rows i) (bIndex A.cols j))
          (B.data (bIndex B.rows i) (bIndex B.cols j))⟩
  | _, _ => none

/-- Model of `np.sum(A, axis=0)`: sums the rows; the length-n result is kept as a
1×n array (it broadcasts against 3×n exactly like numpy's 1-D length-n). -/
def npSumAxis0 (A : NDArray) : NDArray :=
  ⟨1, A.cols, fun _ j => ∑ i ∈ Finset.range A.rows, A.data i j⟩

/-- Model of `A @ B` for 2-D arrays: requires inner dimensions to match, no
broadcasting. -/
def npMatmul (A B : NDArray) : Option NDArray :=
  if A.cols = B.rows then
    some ⟨A.rows, B.cols, fun i j => ∑ k ∈ Finset.range A.cols, A.data i k * B.data k j⟩
  else none

/-- Source `vecDotProduct` on runtime-shaped arrays: `np.sum(A*B, axis=0)`. -/
def vecDotProductND (A B : NDArray) : Option NDArray :=
  (npZip (fun x y => x * y) A B).map npSumAxis0

/-- Source `vecMagnitude` on runtime-shaped arrays: `np.sqrt(vecDotProduct(A, A))`. -/
def vecMagnitudeND (A : NDArray) : Option NDArray :=
  (vecDotProductND A A).map fun S => ⟨S.rows, S.cols, fun i j => Real.sqrt (S.data i j)⟩

/-- Source `stressOnPlane` on runtime-shaped arrays, following the source line by
line; any numpy shape error propagates as `none`. -/
def stressOnPlaneND (stressTensor vecNormal : NDArray) : Option (NDArray × NDArray) := do
  let vecTraction ← npMatmul stressTensor vecNormal
  let normalStress ← vecDotProductND vecNormal vecTraction
  let scaledNormal ← npZip (fun x y => x * y) normalStress vecNormal
  let shearTraction ← npZip (fun x y => x - y) vecTraction scaledNormal
  let shearStress ← vecMagnitudeND shearTraction
  return (normalStress, shearStress)

/-- Result of `np.array([vx, vy, vz])` before/after the reshape step of
`dirVecLine`: either a rank-1 array or a rank-2 array. -/
inductive NPOut where
  | rank1 (len : ℕ) (data : ℕ → ℝ)
  | rank2 (rows cols : ℕ) (data : ℕ → ℕ → ℝ)

/-- The runtime shape of an `NPOut`, as numpy's `v.shape` tuple. -/
def npShape : NPOut → List ℕ
  | NPOut.rank1 len _ => [len]
  | NPOut.rank2 r c _ => [r, c]

/-- The step `if len(v.shape) == 1: v.shape = (3, 1)` of `dirVecLine`: a
rank-1 triple is reshaped into a 3×1 column, rank-2 input is untouched. -/
def forceColumn : NPOut → NPOut
  | NPOut.rank1 _ d => NPOut.rank2 3 1 fun i _ => d i
  | v => v

/-- Source `dirVecLine` on scalar `(plunge, trend)`: the three components are
scalars, so `np.array([vx, vy, vz])` has shape `(3,)` and is then reshaped. -/
def dirVecLineScalarND (plunge trend : ℝ) : NPOut :=
  forceColumn (NPOut.rank1 3 fun i =>
    if i = 0 then Real.sin (radians trend) * Real.cos (radians plunge)
    else if i = 1 then Real.cos (radians trend) * Real.cos (radians plunge)
    else -Real.sin (radians plunge))

/-- Source `dirVecLine` on length-n array `(plunge, trend)`: the three components are
length-n arrays, so `np.array([vx, vy, vz])` has shape `(3, n)` and the
reshape branch is not taken. -/
def dirVecLineArrND (n : ℕ) (plunge trend : ℕ → ℝ) : NPOut :=
  forceColumn (NPOut.rank2 3 n fun i j =>
    if i = 0 then Real.sin (radians (trend j)) * Real.cos (radians (plunge j))
    else if i = 1 then Real.cos (radians (trend j)) * Real.cos (radians (plunge j))
    else -Real.sin (radians (plunge j)))

/-- Source `dirVecPlane` on scalar `(strike, dip)`: delegates to `dirVecLine`. -/
def dirVecPlaneScalarND (strike dip : ℝ) : NPOut :=
  dirVecLineScalarND (dip - 90) (strike + 90)

/-- Source `dirVecPlane` on length-n arrays: delegates to `dirVecLine`. -/
def dirVecPlaneArrND (n : ℕ) (strike dip : ℕ → ℝ) : NPOut :=
  dirVecLineArrND n (fun j => dip j - 90) (fun j => strike j + 90)

/- ### Helper lemmas -/

lemma radians_zero : radians 0 = 0 := by
  simp [radians]

lemma radians_ninety : radians 90 = Real.pi / 2 := by
  unfold radians; ring

lemma radians_neg_ninety : radians (-90) = -(Real.pi / 2) := by
  unfold radians; ring

/-- Entry formulas of `dirVecLineB`. -/
lemma dirVecLineB_apply {n : ℕ} (plunge trend : Fin n → ℝ) (j : Fin n) :
    dirVecLineB plunge trend 0 j = Real.sin (radians (trend j)) * Real.cos (radians (plunge j)) ∧
    dirVecLineB plunge trend 1 j = Real.cos (radians (trend j)) * Real.cos (radians (plunge j)) ∧
    dirVecLineB plunge trend 2 j = -Real.sin (radians (plunge j)) := by
  refine ⟨rfl, rfl, rfl⟩

/-- Every column of `dirVecLineB` has magnitude 1. -/
lemma dirVecLineB_mag {n : ℕ} (plunge trend : Fin n → ℝ) (j : Fin n) :
    vecMagnitude (dirVecLineB plunge trend) j = 1 := by
  have h : vecDotProduct (dirVecLineB plunge trend) (dirVecLineB plunge trend) j = 1 := by
    simp only [vecDotProduct, Fin.sum_univ_three, dirVecLineB, Matrix.of_apply,
      Matrix.cons_val_zero, Matrix.cons_val_one, Matrix.head_cons, Matrix.cons_val_two,
      Matrix.tail_cons]
    linear_combination (Real.cos (radians (plunge j)))^2 *
        Real.sin_sq_add_cos_sq (radians (trend j)) +
      Real.sin_sq_add_cos_sq (radians (plunge j))
  rw [vecMagnitude, h, Real.sqrt_one]

/- ### Claim theorems: fixed direction vectors -/

/-- C9: `dirVecLine(0, 0)` is the single-column vector (East 0, North 1, Up 0);
`dirVecLine(90, 0)` is (0, 0, -1), straight down; `dirVecLine(-90, 0)` is
(0, 0, 1), straight up. -/
theorem dirVecLine_cardinal_values :
    dirVecLine 0 0 = colOf ![0, 1, 0] ∧
    dirVecLine 90 0 = colOf ![0, 0, -1] ∧
    dirVecLine (-90) 0 = colOf ![0, 0, 1] := by
  refine ⟨?_, ?_, ?_⟩ <;>
    · ext i j
      fin_cases j
      fin_cases i <;>
        simp [dirVecLine, dirVecLineB, colOf, radians_zero, radians_ninety, radians_neg_ninety]

/-- C3: for every batch of plunges in [-90, 90] and trends in [0, 360), every
column of `dirVecLine` has Euclidean magnitude 1. -/
theorem dirVecLine_unit_magnitude {n : ℕ} (plunge trend : Fin n → ℝ)
    (_hp : ∀ j, -90 ≤ plunge j ∧ plunge j ≤ 90)
    (_ht : ∀ j, 0 ≤ trend j ∧ trend j < 360) (j : Fin n) :
    vecMagnitude (dirVecLineB plunge trend) j = 1 :=
  dirVecLineB_mag plunge trend j

/-- Witness for C3 at plunge 0, trend 0. -/
theorem dirVecLine_unit_magnitude_witness :
    ((-90:ℝ) ≤ 0 ∧ (0:ℝ) ≤ 90) ∧ ((0:ℝ) ≤ 0 ∧ (0:ℝ) < 360) ∧
    vecMagnitude (dirVecLineB (fun _ : Fin 1 => 0) (fun _ => 0)) 0 = 1 :=
  ⟨⟨by norm_num, by norm_num⟩, ⟨le_refl 0, by norm_num⟩,
    dirVecLine_unit_magnitude (fun _ => 0) (fun _ => 0)
      (fun _ => ⟨by norm_num, by norm_num⟩) (fun _ => ⟨le_refl 0, by norm_num⟩) 0⟩

/- ### Claim theorems: rotation matrix -/

/-- The transpose of `rotationMatrixAroundZ` written out entrywise. -/
lemma rotZ_transpose (a : ℝ) :
    Matrix.transpose (rotationMatrixAroundZ a) =
      !![Real.cos (radians a), -Real.sin (radians a), 0;
         Real.sin (radians a), Real.cos (radians a), 0;
         0, 0, 1] := by
  ext i j
  fin_cases i <;> fin_cases j <;> rfl

/-- C7: `rotationMatrixAroundZ(0)` is the identity matrix, and for every angle
the matrix times its transpose is the identity (orthogonality). -/
theorem rotationMatrixAroundZ_orthogonal :
    rotationMatrixAroundZ 0 = 1 ∧
    ∀ a : ℝ, rotationMatrixAroundZ a * Matrix.transpose (rotationMatrixAroundZ a) = 1 := by
  constructor
  · rw [rotationMatrixAroundZ, radians_zero, Matrix.one_fin_three]
    norm_num
  · intro a
    rw [rotZ_transpose, rotationMatrixAroundZ, Matrix.mul_fin_three, Matrix.one_fin_three]
    ext i j
    fin_cases i <;> fin_cases j <;>
      simp [Matrix.vecHead, Matrix.vecTail] <;>
      first
        | linear_combination Real.sin_sq_add_cos_sq (radians a)
        | ring

/- ### Claim theorems: stress tensor construction -/

/-- C8: the matrix built by `makeStressTensor` is symmetric: it equals its own
transpose, for all stress magnitudes and azimuths. -/
theorem makeStressTensor_symmetric (SHmin SHmax SV azimuth_SHmax : ℝ) :
    Matrix.transpose (makeStressTensor SHmin SHmax SV azimuth_SHmax) =
      makeStressTensor SHmin SHmax SV azimuth_SHmax := by
  have hD : Matrix.transpose (stressTensorDiagonal SHmin SHmax SV) =
      stressTensorDiagonal SHmin SHmax SV := by
    ext i j
    fin_cases i <;> fin_cases j <;> rfl
  unfold makeStressTensor
  rw [Matrix.transpose_mul, Matrix.transpose_mul, Matrix.transpose_transpose, hD,
    Matrix.mul_assoc]

/- ### Claim theorems: plane normals -/

/-- C6: for every strike, `dirVecPlane(strike, 0)` is the unit vector
(0, 0, 1) (the upward normal of a horizontal plane, for any strike), and
`dirVecPlane(strike, 90)` is horizontal (Up component 0) and equals the unit
horizontal direction vector of trend `strike + 90`. -/
theorem dirVecPlane_flat_and_vertical (strike : ℝ) :
    dirVecPlane strike 0 = colOf ![0, 0, 1] ∧
    dirVecPlane strike 90 2 0 = 0 ∧
    dirVecPlane strike 90 = dirVecLine 0 (strike + 90) := by
  have h90 : dirVecPlane strike 90 = dirVecLine 0 (strike + 90) := by
    have h : (fun _ : Fin 1 => (90:ℝ) - 90) = (fun _ : Fin 1 => (0:ℝ)) := by
      funext _
      norm_num
    unfold dirVecPlane dirVecPlaneB dirVecLine
    rw [h]
  refine ⟨?_, ?_, h90⟩
  · ext i j
    fin_cases j
    fin_cases i <;>
      simp [dirVecPlane, dirVecPlaneB, dirVecLineB, colOf, radians_neg_ninety]
  · rw [h90]
    simp [dirVecLine, dirVecLineB, radians_zero]

/-- Witness for C6 at strike 0. -/
theorem dirVecPlane_flat_and_vertical_witness :
    dirVecPlane 0 0 = colOf ![0, 0, 1] ∧
    dirVecPlane 0 90 2 0 = 0 ∧
    dirVecPlane 0 90 = dirVecLine 0 (0 + 90) :=
  dirVecPlane_flat_and_vertical 0

/- ### Claim theorems: SHmax eigenvector of the constructed stress tensor -/

/-- The single column of `dirVecLine 0 a` is the horizontal unit vector with
azimuth `a`: East `sin`, North `cos`, Up 0. -/
lemma dirVecLine_azimuth_col (a : ℝ) :
    (fun i => dirVecLine 0 a i 0) =
      ![Real.sin (radians a), Real.cos (radians a), 0] := by
  funext i
  fin_cases i <;> simp [dirVecLine, dirVecLineB, radians_zero]

/-- Rotating the azimuth-`a` unit vector back by `rotationMatrixAroundZ(a)ᵀ`
gives the North basis vector. -/
lemma rotZ_transpose_mulVec_azimuth (a : ℝ) :
    Matrix.mulVec (Matrix.transpose (rotationMatrixAroundZ a))
      ![Real.sin (radians a), Real.cos (radians a), 0] = ![0, 1, 0] := by
  rw [rotZ_transpose]
  funext i
  fin_cases i <;>
    simp [Matrix.mulVec, Matrix.dotProduct, Fin.sum_univ_three] <;>
    first
      | linear_combination Real.sin_sq_add_cos_sq (radians a)
      | ring

/-- The azimuth-`a` unit vector is an eigenvector of `makeStressTensor` with
eigenvalue `SHmax`. -/
lemma makeStressTensor_mulVec_azimuth (SHmin SHmax SV a : ℝ) :
    Matrix.mulVec (makeStressTensor SHmin SHmax SV a)
        ![Real.sin (radians a), Real.cos (radians a), 0] =
      SHmax • ![Real.sin (radians a), Real.cos (radians a), 0] := by
  rw [makeStressTensor, ← Matrix.mulVec_mulVec, ← Matrix.mulVec_mulVec,
    rotZ_transpose_mulVec_azimuth]
  have hD : Matrix.mulVec (stressTensorDiagonal SHmin SHmax SV) ![0, 1, 0] =
      ![0, SHmax, 0] := by
    funext i
    fin_cases i <;>
      simp [stressTensorDiagonal, Matrix.mulVec, Matrix.dotProduct, Fin.sum_univ_three]
  rw [hD]
  funext i
  fin_cases i <;>
    simp [rotationMatrixAroundZ, Matrix.mulVec, Matrix.dotProduct, Fin.sum_univ_three] <;>
    ring

/-- C1: for `makeStressTensor(10, 50, 30, ·)` the eigenvector for eigenvalue 50
points along `azimuth_SHmax`: with azimuth 0 the North vector (0,1,0) is an
eigenvector for 50, with azimuth 90 the East vector (1,0,0) is; in general,
`rotationMatrixAroundZ(a)` maps the North basis vector to the horizontal unit
vector of azimuth `a` (the column of `dirVecLine 0 a`), and that vector is an
eigenvector of `makeStressTensor(SHmin, SHmax, SV, a)` with eigenvalue
`SHmax`. -/
theorem makeStressTensor_SHmax_eigenvector :
    Matrix.mulVec (makeStressTensor 10 50 30 0) ![0, 1, 0] = (50:ℝ) • ![0, 1, 0] ∧
    Matrix.mulVec (makeStressTensor 10 50 30 90) ![1, 0, 0] = (50:ℝ) • ![1, 0, 0] ∧
    ∀ a : ℝ,
      Matrix.mulVec (rotationMatrixAroundZ a) ![0, 1, 0] = (fun i => dirVecLine 0 a i 0) ∧
      ∀ SHmin SHmax SV : ℝ,
        Matrix.mulVec (makeStressTensor SHmin SHmax SV a) (fun i => dirVecLine 0 a i 0) =
          SHmax • (fun i => dirVecLine 0 a i 0) := by
  have h0 : (![Real.sin (radians 0), Real.cos (radians 0), 0] : Fin 3 → ℝ) = ![0, 1, 0] := by
    funext i
    fin_cases i <;> simp [radians_zero]
  have h90 : (![Real.sin (radians 90), Real.cos (radians 90), 0] : Fin 3 → ℝ) = ![1, 0, 0] := by
    funext i
    fin_cases i <;> simp [radians_ninety]
  refine ⟨?_, ?_, fun a => ⟨?_, fun SHmin SHmax SV => ?_⟩⟩
  · rw [← h0, makeStressTensor_mulVec_azimuth]
  · rw [← h90, makeStressTensor_mulVec_azimuth]
  · rw [dirVecLine_azimuth_col]
    funext i
    fin_cases i <;>
      simp [rotationMatrixAroundZ, Matrix.mulVec, Matrix.dotProduct, Fin.sum_univ_three]
  · rw [dirVecLine_azimuth_col, makeStressTensor_mulVec_azimuth]

/- ### Claim theorems: stress resolution -/

/-- First component of `stressOnPlane`: the normal stress. -/
lemma stressOnPlane_fst {n : ℕ} (T : Matrix (Fin 3) (Fin 3) ℝ)
    (N : Matrix (Fin 3) (Fin n) ℝ) (j : Fin n) :
    (stressOnPlane T N).1 j = vecDotProduct N (T * N) j := rfl

/-- Second component of `stressOnPlane`: the shear stress. -/
lemma stressOnPlane_snd {n : ℕ} (T : Matrix (Fin 3) (Fin 3) ℝ)
    (N : Matrix (Fin 3) (Fin n) ℝ) :
    (stressOnPlane T N).2 =
      vecMagnitude (Matrix.of fun i j => (T * N) i j - vecDotProduct N (T * N) j * N i j) := rfl

/-- C2: resolving a diagonal stress tensor on each of its principal-axis unit
normals (the standard basis vectors) gives zero shear stress and normal stress
equal to the corresponding diagonal entry; in particular the horizontal-plane
normal (0,0,1) gives normal stress `sU` and shear stress 0. -/
theorem stressOnPlane_diagonal_principal (sE sN sU : ℝ) :
    (stressOnPlane (stressTensorDiagonal sE sN sU) (colOf ![1, 0, 0])).1 0 = sE ∧
    (stressOnPlane (stressTensorDiagonal sE sN sU) (colOf ![1, 0, 0])).2 0 = 0 ∧
    (stressOnPlane (stressTensorDiagonal sE sN sU) (colOf ![0, 1, 0])).1 0 = sN ∧
    (stressOnPlane (stressTensorDiagonal sE sN sU) (colOf ![0, 1, 0])).2 0 = 0 ∧
    (stressOnPlane (stressTensorDiagonal sE sN sU) (colOf ![0, 0, 1])).1 0 = sU ∧
    (stressOnPlane (stressTensorDiagonal sE sN sU) (colOf ![0, 0, 1])).2 0 = 0 := by
  refine ⟨?_, ?_, ?_, ?_, ?_, ?_⟩ <;>
    simp [stressOnPlane_fst, stressOnPlane_snd, vecDotProduct, vecMagnitude,
      stressTensorDiagonal, colOf, Matrix.mul_apply, Fin.sum_univ_three,
      Matrix.vecHead, Matrix.vecTail]

/-- The squared magnitude is the self dot product. -/
lemma vecMagnitude_sq {m n : ℕ} (A : Matrix (Fin m) (Fin n) ℝ) (j : Fin n) :
    vecMagnitude A j ^ 2 = vecDotProduct A A j := by
  rw [vecMagnitude]
  exact Real.sq_sqrt (Finset.sum_nonneg fun i _ => mul_self_nonneg (A i j))

/-- C10: for every stress tensor and every batch of unit normals, the pair
returned by `stressOnPlane` decomposes the traction by Pythagoras:
`normalStress² + shearStress² = |T n|²` columnwise. -/
theorem stressOnPlane_normal_shear_pythagoras {n : ℕ} (T : Matrix (Fin 3) (Fin 3) ℝ)
    (N : Matrix (Fin 3) (Fin n) ℝ) (h : ∀ j, vecMagnitude N j = 1) (j : Fin n) :
    (stressOnPlane T N).1 j ^ 2 + (stressOnPlane T N).2 j ^ 2 =
      vecMagnitude (T * N) j ^ 2 := by
  have h1 := h j
  rw [vecMagnitude] at h1
  have hdot : vecDotProduct N N j = 1 := Real.sqrt_eq_one.mp h1
  rw [stressOnPlane_fst, stressOnPlane_snd, vecMagnitude_sq, vecMagnitude_sq]
  simp only [vecDotProduct, Fin.sum_univ_three, Matrix.of_apply] at hdot ⊢
  linear_combination
    (N 0 j * (T * N) 0 j + N 1 j * (T * N) 1 j + N 2 j * (T * N) 2 j) ^ 2 * hdot

/-- Witness for C10: identity-like diagonal tensor on the vertical unit normal. -/
theorem stressOnPlane_normal_shear_pythagoras_witness :
    (∀ j : Fin 1, vecMagnitude (colOf ![0, 0, 1]) j = 1) ∧
    (stressOnPlane (stressTensorDiagonal 1 2 3) (colOf ![0, 0, 1])).1 0 ^ 2 +
        (stressOnPlane (stressTensorDiagonal 1 2 3) (colOf ![0, 0, 1])).2 0 ^ 2 =
      vecMagnitude (stressTensorDiagonal 1 2 3 * colOf ![0, 0, 1]) 0 ^ 2 := by
  have hu : ∀ j : Fin 1, vecMagnitude (colOf ![0, 0, 1]) j = 1 := by
    intro j
    simp [vecMagnitude, vecDotProduct, Fin.sum_univ_three, colOf]
  exact ⟨hu, stressOnPlane_normal_shear_pythagoras (stressTensorDiagonal 1 2 3)
    (colOf ![0, 0, 1]) hu 0⟩

/- ### Claim theorems: runtime shapes -/

/-- C5: `dirVecLine` (and `dirVecPlane`, which delegates to it) always returns
a rank-2 array with exactly 3 rows: scalar inputs give shape (3, 1), never a
bare 1-D triple, and length-n array inputs give shape (3, n). -/
theorem dirVecLine_shape_always_3xN :
    (∀ plunge trend : ℝ, npShape (dirVecLineScalarND plunge trend) = [3, 1]) ∧
    (∀ (n : ℕ) (plunge trend : ℕ → ℝ), npShape (dirVecLineArrND n plunge trend) = [3, n]) ∧
    (∀ strike dip : ℝ, npShape (dirVecPlaneScalarND strike dip) = [3, 1]) ∧
    (∀ (n : ℕ) (strike dip : ℕ → ℝ), npShape (dirVecPlaneArrND n strike dip) = [3, n]) :=
  ⟨fun _ _ => rfl, fun _ _ _ => rfl, fun _ _ => rfl, fun _ _ _ => rfl⟩

/-- One numpy dimension broadcasts exactly when the sizes agree or one is 1. -/
lemma broadcastDim_isSome (a b : ℕ) :
    (broadcastDim a b).isSome = true ↔ (a = b ∨ a = 1 ∨ b = 1) := by
  unfold broadcastDim
  split_ifs <;> simp_all

/-- An elementwise operation succeeds exactly when both dimensions broadcast. -/
lemma npZip_isSome (f : ℝ → ℝ → ℝ) (A B : NDArray) :
    (npZip f A B).isSome = true ↔
      ((A.rows = B.rows ∨ A.rows = 1 ∨ B.rows = 1) ∧
       (A.cols = B.cols ∨ A.cols = 1 ∨ B.cols = 1)) := by
  rw [← broadcastDim_isSome A.rows B.rows, ← broadcastDim_isSome A.cols B.cols]
  unfold npZip
  cases broadcastDim A.rows B.rows <;> cases broadcastDim A.cols B.cols <;> simp

/-- C4 counterexample: a 3×2 batch against a 3×1 batch has mismatched column
counts, yet `vecDotProduct` does not fail — numpy silently broadcasts the
single column and returns a result. -/
theorem vecDotProductND_mismatch_broadcasts :
    (NDArray.mk 3 2 fun _ _ => 1).cols ≠ (NDArray.mk 3 1 fun _ _ => 1).cols ∧
    (vecDotProductND (NDArray.mk 3 2 fun _ _ => 1) (NDArray.mk 3 1 fun _ _ => 1)).isSome
      = true := by
  exact ⟨by norm_num, rfl⟩

/-- C4 (amended): a direct `vecDotProduct` call fails with a shape error
exactly when the two shapes are not broadcast-compatible — a dimension pair
differing with neither equal to 1; when one of the differing sizes is 1
(e.g. a 3×n against a 3×1 batch), numpy silently broadcasts instead of
failing. `stressOnPlane` of a 3×3 tensor fails exactly when the normal batch
does not have 3 rows (the matrix product rejects it). -/
theorem vecDotProductND_failure_semantics :
    (∀ A B : NDArray, (vecDotProductND A B).isSome = true ↔
      ((A.rows = B.rows ∨ A.rows = 1 ∨ B.rows = 1) ∧
       (A.cols = B.cols ∨ A.cols = 1 ∨ B.cols = 1))) ∧
    (∀ (tdata : ℕ → ℕ → ℝ) (N : NDArray),
      (stressOnPlaneND (NDArray.mk 3 3 tdata) N).isSome = true ↔ N.rows = 3) := by
  constructor
  · intro A B
    rw [← npZip_isSome (fun x y => x * y) A B]
    unfold vecDotProductND
    cases npZip (fun x y => x * y) A B <;> simp
  · intro tdata N
    obtain ⟨r, c, d⟩ := N
    by_cases h : r = 3
    · subst h
      simp [stressOnPlaneND, npMatmul, vecDotProductND, npZip, vecMagnitudeND,
        npSumAxis0, broadcastDim, bIndex, Option.bind]
    · have h' : (3 : ℕ) ≠ r := fun e => h e.symm
      simp [stressOnPlaneND, npMatmul, h', h, Option.bind]
